import Mathlib

/-!
Verification of the HAL module loader (`hardware.c`): the functions `load`
and `hw_get_module` are embedded as pure Lean functions over an explicit
external environment (the property store read by `property_get` and the
set of loadable shared libraries visible to `dlopen`/`dlsym`).  Resource
usage is made observable: each result carries the number of successful
`dlopen` calls and of `dlclose` calls performed during the computation,
together with the trace of load attempts (index of the variant entry and
the constructed path).
-/

set_option maxHeartbeats 1000000
set_option maxRecDepth 8192

namespace Hardware

/-- The part of `struct hw_module_t` this code reads: its `id` field
(`hmi->id` at hardware.c:92). -/
structure hw_module_t where
  id : String
deriving DecidableEq, Repr

/-- A shared library file as seen by this code: it can be `dlopen`ed, and
`dlsym` for `HAL_MODULE_INFO_SYM_AS_STR` either fails (`hmi = none`) or
yields a descriptor. -/
structure LibFile where
  hmi : Option hw_module_t
deriving DecidableEq, Repr

/-- `EINVAL` from `<errno.h>` (Linux value 22); failures return `-EINVAL`. -/
def EINVAL : Int := 22

/-- `#define HAL_LIBRARY_PATH "/system/lib/hw"` (hardware.c:31). -/
def HAL_LIBRARY_PATH : String := "/system/lib/hw"

/-- `#define HAL_DEFAULT_VARIANT "default"` (hardware.c:44). -/
def HAL_DEFAULT_VARIANT : String := "default"

/-- `#define HAL_VARIANT_KEYS_COUNT 3` (hardware.c:45). -/
def HAL_VARIANT_KEYS_COUNT : Nat := 3

/-- `static const char *variant_keys[]` (hardware.c:46-50). -/
def variant_keys : List String := ["ro.product.board", "ro.arch", HAL_DEFAULT_VARIANT]

/-- `PATH_MAX` from `<limits.h>` on Linux. -/
def PATH_MAX : Nat := 4096

/-- The external world: the read-only property store (`property_get`) and
the filesystem of loadable libraries keyed by path (`dlopen`). -/
structure Env where
  props : String → Option String
  fs : String → Option LibFile

/-- What one call to `load` (hardware.c:57-116) produces: the return
`status`, the values written through `*pHandle` and `*pHmi` (a handle is
modelled by the path it was opened from), and the number of successful
`dlopen` calls and of `dlclose` calls made during the call. -/
structure LoadResult where
  status : Int
  handle : Option String
  hmi : Option hw_module_t
  dlopens : Nat
  dlcloses : Nat
deriving DecidableEq, Repr

/-- `load` (hardware.c:57-116): `dlopen` the path; on success `dlsym` the
descriptor symbol; on success compare `hmi->id` with `id` via `strcmp`.
Any failure funnels through the single `done:` exit, which nulls `hmi`
and `dlclose`s a non-null handle before writing both outputs. -/
def load (fs : String → Option LibFile) (id path : String) : LoadResult :=
  match fs path with
  | none =>
    { status := -EINVAL, handle := none, hmi := none, dlopens := 0, dlcloses := 0 }
  | some lib =>
    match lib.hmi with
    | none =>
      { status := -EINVAL, handle := none, hmi := none, dlopens := 1, dlcloses := 1 }
    | some m =>
      if id = m.id then
        { status := 0, handle := some path, hmi := some m, dlopens := 1, dlcloses := 0 }
      else
        { status := -EINVAL, handle := none, hmi := none, dlopens := 1, dlcloses := 1 }

/-- Variant selection for one entry of `variant_keys`
(hardware.c:140-148): the `HAL_DEFAULT_VARIANT` entry always yields the
constant (copied by `strncpy` into a `PATH_MAX` buffer); any other entry
queries `property_get` and yields nothing when the key is absent or its
value empty (`property_get(...) == 0` makes the loop `continue`). -/
def resolveVariant (props : String → Option String) (key : String) : Option String :=
  if key = HAL_DEFAULT_VARIANT then
    some (String.mk (HAL_DEFAULT_VARIANT.data.take (PATH_MAX - 1)))
  else
    match props key with
    | none => none
    | some v => if v.length = 0 then none else some v

/-- Path construction (hardware.c:151-152):
`snprintf(path, sizeof(path), "%s/%s.%s.so", HAL_LIBRARY_PATH, id, variant)`,
truncated by `snprintf` to `PATH_MAX - 1` characters. -/
def mkPath (id variant : String) : String :=
  String.mk ((HAL_LIBRARY_PATH ++ "/" ++ id ++ "." ++ variant ++ ".so").data.take (PATH_MAX - 1))

/-- State of the locals of `hw_get_module` across loop iterations, plus
the observable trace: attempted `(index, path)` pairs and cumulative
`dlopen`/`dlclose` counts. -/
structure LoopState where
  status : Int
  handle : Option String
  hmi : Option hw_module_t
  attempts : List (Nat × String)
  dlopens : Nat
  dlcloses : Nat
deriving DecidableEq, Repr

/-- One attempted iteration of the loop body (hardware.c:150-153): build
the path, call `load`, overwrite the locals with its outputs, accumulate
its resource counts and record the attempt. -/
def stepState (env : Env) (id : String) (s : LoopState) (i : Nat) (v : String) : LoopState :=
  let path := mkPath id v
  let r := load env.fs id path
  { status := r.status, handle := r.handle, hmi := r.hmi,
    attempts := s.attempts ++ [(i, path)],
    dlopens := s.dlopens + r.dlopens,
    dlcloses := s.dlcloses + r.dlcloses }

/-- The `for` loop of `hw_get_module` (hardware.c:138-154), running over
the remaining indices: stop when `status == 0`, skip an entry whose
variant is unavailable, otherwise run the loop body. -/
def runLoop (env : Env) (id : String) : List Nat → LoopState → LoopState
  | [], s => s
  | i :: rest, s =>
    if s.status = 0 then s
    else
      match resolveVariant env.props (variant_keys.getD i "") with
      | none => runLoop env id rest s
      | some variant => runLoop env id rest (stepState env id s i variant)

/-- What one call to `hw_get_module` produces: the return `status`, the
value written through `*module`, the final value of the local `handle`
(the still-open library on success), and the observable trace. -/
structure GetModuleResult where
  status : Int
  module : Option hw_module_t
  handle : Option String
  attempts : List (Nat × String)
  dlopens : Nat
  dlcloses : Nat
deriving DecidableEq, Repr

/-- Initial locals of `hw_get_module`: `status = -EINVAL`, `hmi = NULL`,
`handle = NULL` (hardware.c:121-137). -/
def initState : LoopState :=
  { status := -EINVAL, handle := none, hmi := none, attempts := [], dlopens := 0, dlcloses := 0 }

/-- `hw_get_module` (hardware.c:118-166): run the variant loop over
indices 0, 1, 2; afterwards, if `status != 0`, null `hmi` and `dlclose`
the handle when non-null (hardware.c:155-160); finally write `*module`. -/
def hw_get_module (env : Env) (id : String) : GetModuleResult :=
  let s := runLoop env id [0, 1, 2] initState
  if s.status ≠ 0 then
    { status := s.status, module := none, handle := none,
      attempts := s.attempts, dlopens := s.dlopens,
      dlcloses := s.dlcloses + (if s.handle.isSome then 1 else 0) }
  else
    { status := s.status, module := s.hmi, handle := s.handle,
      attempts := s.attempts, dlopens := s.dlopens, dlcloses := s.dlcloses }

/-- One variant attempt as `hw_get_module` would perform it at entry `i`:
`none` when the entry's variant is unavailable, otherwise the result of
`load` on the constructed path. -/
def attemptLoad (env : Env) (id : String) (i : Nat) : Option LoadResult :=
  (resolveVariant env.props (variant_keys.getD i "")).map
    (fun v => load env.fs id (mkPath id v))

/-- Whether entry `i` both resolves to an available variant and loads
successfully. -/
def attemptOk (env : Env) (id : String) (i : Nat) : Bool :=
  match attemptLoad env id i with
  | none => false
  | some r => r.status == 0

/-- Concrete environment with no properties set and no libraries. -/
def emptyEnv : Env :=
  { props := fun _ => none, fs := fun _ => none }

/-- Concrete environment where only the default-variant file for `"led"`
exists and is valid. -/
def ledEnv : Env :=
  { props := fun _ => none,
    fs := fun p =>
      if p = "/system/lib/hw/led.default.so" then some { hmi := some { id := "led" } }
      else none }

/-- The concrete scenario of the spec: board key `"trout"`, arch key
unset, board-variant file with mismatching id `"led2"`, default-variant
file with id `"led"`. -/
def scenarioEnv : Env :=
  { props := fun k => if k = "ro.product.board" then some "trout" else none,
    fs := fun p =>
      if p = "/system/lib/hw/led.trout.so" then some { hmi := some { id := "led2" } }
      else if p = "/system/lib/hw/led.default.so" then some { hmi := some { id := "led" } }
      else none }

/-! ### Branch equations for `load` -/

theorem load_eq_open_fail (fs : String → Option LibFile) (id path : String)
    (hfs : fs path = none) :
    load fs id path =
      { status := -EINVAL, handle := none, hmi := none, dlopens := 0, dlcloses := 0 } := by
  simp [load, hfs]

theorem load_eq_sym_fail (fs : String → Option LibFile) (id path : String)
    (lib : LibFile) (hfs : fs path = some lib) (hm : lib.hmi = none) :
    load fs id path =
      { status := -EINVAL, handle := none, hmi := none, dlopens := 1, dlcloses := 1 } := by
  simp [load, hfs, hm]

theorem load_eq_mismatch (fs : String → Option LibFile) (id path : String)
    (lib : LibFile) (m : hw_module_t) (hfs : fs path = some lib)
    (hm : lib.hmi = some m) (hid : id ≠ m.id) :
    load fs id path =
      { status := -EINVAL, handle := none, hmi := none, dlopens := 1, dlcloses := 1 } := by
  simp [load, hfs, hm, hid]

theorem load_eq_success (fs : String → Option LibFile) (id path : String)
    (lib : LibFile) (m : hw_module_t) (hfs : fs path = some lib)
    (hm : lib.hmi = some m) (hid : id = m.id) :
    load fs id path =
      { status := 0, handle := some path, hmi := some m, dlopens := 1, dlcloses := 0 } := by
  simp [load, hfs, hm, hid]

/-- Exhaustive case split over the four branches of `load`. -/
theorem load_branches (fs : String → Option LibFile) (id path : String) :
    load fs id path =
      { status := -EINVAL, handle := none, hmi := none, dlopens := 0, dlcloses := 0 } ∨
    load fs id path =
      { status := -EINVAL, handle := none, hmi := none, dlopens := 1, dlcloses := 1 } ∨
    ∃ m, m.id = id ∧ load fs id path =
      { status := 0, handle := some path, hmi := some m, dlopens := 1, dlcloses := 0 } := by
  cases hfs : fs path with
  | none => exact Or.inl (load_eq_open_fail fs id path hfs)
  | some lib =>
    cases hm : lib.hmi with
    | none => exact Or.inr (Or.inl (load_eq_sym_fail fs id path lib hfs hm))
    | some m =>
      by_cases hid : id = m.id
      · exact Or.inr (Or.inr ⟨m, hid.symm, load_eq_success fs id path lib m hfs hm hid⟩)
      · exact Or.inr (Or.inl (load_eq_mismatch fs id path lib m hfs hm hid))

theorem load_status_cases (fs : String → Option LibFile) (id path : String) :
    (load fs id path).status = 0 ∨ (load fs id path).status = -EINVAL := by
  rcases load_branches fs id path with h | h | ⟨m, _, h⟩ <;> rw [h] <;> simp

theorem load_fail (fs : String → Option LibFile) (id path : String)
    (h : (load fs id path).status ≠ 0) :
    (load fs id path).handle = none ∧ (load fs id path).hmi = none ∧
    (load fs id path).dlopens = (load fs id path).dlcloses := by
  rcases load_branches fs id path with he | he | ⟨m, _, he⟩ <;> rw [he] at h ⊢
  · simp
  · simp
  · simp at h

theorem load_success (fs : String → Option LibFile) (id path : String)
    (h : (load fs id path).status = 0) :
    (load fs id path).handle = some path ∧
    (∃ m, (load fs id path).hmi = some m ∧ m.id = id) ∧
    (load fs id path).dlopens = 1 ∧ (load fs id path).dlcloses = 0 := by
  rcases load_branches fs id path with he | he | ⟨m, hid, he⟩ <;> rw [he] at h ⊢
  · simp [EINVAL] at h
  · simp [EINVAL] at h
  · exact ⟨rfl, ⟨m, rfl, hid⟩, rfl, rfl⟩

/-! ### Unfolding lemmas for the loop -/

theorem runLoop_nil (env : Env) (id : String) (s : LoopState) :
    runLoop env id [] s = s := rfl

theorem runLoop_stop (env : Env) (id : String) (l : List Nat) (s : LoopState)
    (h : s.status = 0) : runLoop env id l s = s := by
  cases l with
  | nil => rfl
  | cons i rest => rw [runLoop, if_pos h]

theorem runLoop_cons_skip (env : Env) (id : String) (i : Nat) (rest : List Nat)
    (s : LoopState) (h : s.status ≠ 0)
    (hr : resolveVariant env.props (variant_keys.getD i "") = none) :
    runLoop env id (i :: rest) s = runLoop env id rest s := by
  rw [runLoop, if_neg h, hr]

theorem runLoop_cons_attempt (env : Env) (id : String) (i : Nat) (rest : List Nat)
    (s : LoopState) (v : String) (h : s.status ≠ 0)
    (hr : resolveVariant env.props (variant_keys.getD i "") = some v) :
    runLoop env id (i :: rest) s = runLoop env id rest (stepState env id s i v) := by
  rw [runLoop, if_neg h, hr]

/-! ### The loop invariant -/

/-- Invariant maintained by the locals of `hw_get_module` between loop
iterations: the status is either success or `-EINVAL`; on success the
handle is open, the descriptor is present and its id matches, and exactly
one more `dlopen` than `dlclose` has happened; on failure both locals are
null and the open/close counts balance. -/
def Inv (id : String) (s : LoopState) : Prop :=
  (s.status = 0 ∨ s.status = -EINVAL) ∧
  (s.status = 0 →
    (∃ p, s.handle = some p) ∧ ∃ m, s.hmi = some m ∧ m.id = id) ∧
  (s.status ≠ 0 → s.handle = none ∧ s.hmi = none) ∧
  s.dlopens = s.dlcloses + (if s.status = 0 then 1 else 0)

theorem initState_inv (id : String) : Inv id initState := by
  refine ⟨Or.inr rfl, ?_, ?_, ?_⟩ <;> simp [initState, EINVAL]

theorem stepState_inv (env : Env) (id : String) (s : LoopState) (i : Nat) (v : String)
    (hs : s.status ≠ 0) (h : Inv id s) : Inv id (stepState env id s i v) := by
  obtain ⟨-, -, -, hbal⟩ := h
  rw [if_neg hs, Nat.add_zero] at hbal
  unfold stepState
  rcases load_status_cases env.fs id (mkPath id v) with h0 | he
  · obtain ⟨hh, ⟨m, hm, hid⟩, ho, hc⟩ := load_success env.fs id (mkPath id v) h0
    refine ⟨Or.inl h0, fun _ => ⟨⟨mkPath id v, hh⟩, m, hm, hid⟩, fun hne => absurd h0 hne, ?_⟩
    simp [h0, hh, ho, hc, hbal, Nat.add_comm]
  · have hne : (load env.fs id (mkPath id v)).status ≠ 0 := by
      rw [he]; decide
    obtain ⟨hh, hm, hoc⟩ := load_fail env.fs id (mkPath id v) hne
    refine ⟨Or.inr he, fun h0 => absurd h0 hne, fun _ => ⟨hh, hm⟩, ?_⟩
    simp [hne, hoc, hbal]

theorem runLoop_inv (env : Env) (id : String) (l : List Nat) (s : LoopState)
    (h : Inv id s) : Inv id (runLoop env id l s) := by
  induction l generalizing s with
  | nil => rw [runLoop_nil]; exact h
  | cons i rest ih =>
    by_cases hs : s.status = 0
    · rw [runLoop_stop env id _ s hs]; exact h
    · cases hr : resolveVariant env.props (variant_keys.getD i "") with
      | none => rw [runLoop_cons_skip env id i rest s hs hr]; exact ih s h
      | some v =>
        rw [runLoop_cons_attempt env id i rest s v hs hr]
        exact ih _ (stepState_inv env id s i v hs h)

/-- Every attempt recorded by the loop comes either from the incoming
state or from an index of the list whose variant resolved. -/
theorem runLoop_attempts_mem (env : Env) (id : String) (l : List Nat) (s : LoopState)
    (x : Nat × String) (hx : x ∈ (runLoop env id l s).attempts) :
    x ∈ s.attempts ∨
    (x.1 ∈ l ∧ ∃ v, resolveVariant env.props (variant_keys.getD x.1 "") = some v ∧
      x.2 = mkPath id v) := by
  induction l generalizing s with
  | nil => rw [runLoop_nil] at hx; exact Or.inl hx
  | cons i rest ih =>
    by_cases hs : s.status = 0
    · rw [runLoop_stop env id _ s hs] at hx; exact Or.inl hx
    · cases hr : resolveVariant env.props (variant_keys.getD i "") with
      | none =>
        rw [runLoop_cons_skip env id i rest s hs hr] at hx
        rcases ih s hx with h | ⟨h1, h2⟩
        · exact Or.inl h
        · exact Or.inr ⟨List.mem_cons_of_mem i h1, h2⟩
      | some v =>
        rw [runLoop_cons_attempt env id i rest s v hs hr] at hx
        rcases ih _ hx with h | ⟨h1, h2⟩
        · unfold stepState at h
          simp only [List.mem_append, List.mem_singleton] at h
          rcases h with h | h
          · exact Or.inl h
          · subst h
            exact Or.inr ⟨List.mem_cons_self i rest, v, hr, rfl⟩
        · exact Or.inr ⟨List.mem_cons_of_mem i h1, h2⟩

/-! ### Consequences for `hw_get_module` -/

theorem hw_get_module_unfold (env : Env) (id : String) :
    hw_get_module env id =
      (if (runLoop env id [0, 1, 2] initState).status ≠ 0 then
        { status := (runLoop env id [0, 1, 2] initState).status, module := none,
          handle := none,
          attempts := (runLoop env id [0, 1, 2] initState).attempts,
          dlopens := (runLoop env id [0, 1, 2] initState).dlopens,
          dlcloses := (runLoop env id [0, 1, 2] initState).dlcloses +
            (if (runLoop env id [0, 1, 2] initState).handle.isSome then 1 else 0) }
      else
        { status := (runLoop env id [0, 1, 2] initState).status,
          module := (runLoop env id [0, 1, 2] initState).hmi,
          handle := (runLoop env id [0, 1, 2] initState).handle,
          attempts := (runLoop env id [0, 1, 2] initState).attempts,
          dlopens := (runLoop env id [0, 1, 2] initState).dlopens,
          dlcloses := (runLoop env id [0, 1, 2] initState).dlcloses }) := rfl

theorem hw_get_module_status_eq (env : Env) (id : String) :
    (hw_get_module env id).status = (runLoop env id [0, 1, 2] initState).status := by
  rw [hw_get_module_unfold]
  by_cases h : (runLoop env id [0, 1, 2] initState).status ≠ 0
  · rw [if_pos h]
  · rw [if_neg h]

theorem hw_get_module_attempts_eq (env : Env) (id : String) :
    (hw_get_module env id).attempts = (runLoop env id [0, 1, 2] initState).attempts := by
  rw [hw_get_module_unfold]
  by_cases h : (runLoop env id [0, 1, 2] initState).status ≠ 0
  · rw [if_pos h]
  · rw [if_neg h]

theorem hw_get_module_status_cases (env : Env) (id : String) :
    (hw_get_module env id).status = 0 ∨ (hw_get_module env id).status = -EINVAL := by
  rw [hw_get_module_status_eq]
  exact (runLoop_inv env id [0, 1, 2] initState (initState_inv id)).1

theorem hw_get_module_fail (env : Env) (id : String)
    (h : (hw_get_module env id).status ≠ 0) :
    (hw_get_module env id).module = none ∧ (hw_get_module env id).handle = none ∧
    (hw_get_module env id).dlopens = (hw_get_module env id).dlcloses := by
  obtain ⟨-, -, hfailv, hbal⟩ := runLoop_inv env id [0, 1, 2] initState (initState_inv id)
  rw [hw_get_module_status_eq] at h
  obtain ⟨hh, -⟩ := hfailv h
  rw [hw_get_module_unfold, if_pos h]
  rw [if_neg h, Nat.add_zero] at hbal
  simp [hh, hbal]

theorem hw_get_module_success (env : Env) (id : String)
    (h : (hw_get_module env id).status = 0) :
    (∃ p, (hw_get_module env id).handle = some p) ∧
    (∃ m, (hw_get_module env id).module = some m ∧ m.id = id) ∧
    (hw_get_module env id).dlopens = (hw_get_module env id).dlcloses + 1 := by
  obtain ⟨-, hsucc, -, hbal⟩ := runLoop_inv env id [0, 1, 2] initState (initState_inv id)
  rw [hw_get_module_status_eq] at h
  obtain ⟨⟨p, hp⟩, m, hm, hid⟩ := hsucc h
  rw [hw_get_module_unfold, if_neg (by rw [h]; exact fun hc => hc rfl)]
  rw [if_pos h] at hbal
  exact ⟨⟨p, hp⟩, ⟨m, hm, hid⟩, hbal⟩

theorem hw_get_module_module_of_success (env : Env) (id : String)
    (h : (runLoop env id [0, 1, 2] initState).status = 0) :
    (hw_get_module env id).module = (runLoop env id [0, 1, 2] initState).hmi := by
  rw [hw_get_module_unfold, if_neg (fun hc => hc h)]

/-! ### Characterizing one attempt -/

theorem attemptOk_true_iff (env : Env) (id : String) (i : Nat) :
    attemptOk env id i = true ↔
    ∃ v, resolveVariant env.props (variant_keys.getD i "") = some v ∧
      (load env.fs id (mkPath id v)).status = 0 := by
  unfold attemptOk attemptLoad
  cases hr : resolveVariant env.props (variant_keys.getD i "") with
  | none => simp
  | some v => simp [beq_iff_eq]

theorem attemptOk_false_elim (env : Env) (id : String) (i : Nat)
    (h : attemptOk env id i = false) :
    resolveVariant env.props (variant_keys.getD i "") = none ∨
    ∃ v, resolveVariant env.props (variant_keys.getD i "") = some v ∧
      (load env.fs id (mkPath id v)).status ≠ 0 := by
  unfold attemptOk attemptLoad at h
  cases hr : resolveVariant env.props (variant_keys.getD i "") with
  | none => exact Or.inl rfl
  | some v =>
    rw [hr] at h
    simp at h
    exact Or.inr ⟨v, rfl, by simpa using h⟩

/-! ### Decomposing the loop -/

theorem initState_status_ne (h : initState.status = 0) : False := by
  rw [initState] at h
  simp [EINVAL] at h

theorem runLoop_append (env : Env) (id : String) (l₁ l₂ : List Nat) (s : LoopState) :
    runLoop env id (l₁ ++ l₂) s = runLoop env id l₂ (runLoop env id l₁ s) := by
  induction l₁ generalizing s with
  | nil => rw [List.nil_append, runLoop_nil]
  | cons i rest ih =>
    by_cases hs : s.status = 0
    · rw [runLoop_stop env id _ s hs, runLoop_stop env id _ s hs,
        runLoop_stop env id _ s hs]
    · cases hr : resolveVariant env.props (variant_keys.getD i "") with
      | none =>
        rw [List.cons_append, runLoop_cons_skip env id i _ s hs hr,
          runLoop_cons_skip env id i rest s hs hr, ih]
      | some v =>
        rw [List.cons_append, runLoop_cons_attempt env id i _ s v hs hr,
          runLoop_cons_attempt env id i rest s v hs hr, ih]

/-- Running the loop over entries that all fail keeps the failure status
and only adds attempts at indices of that list. -/
theorem runLoop_fail_prefix (env : Env) (id : String) (l : List Nat) (s : LoopState)
    (hs : s.status ≠ 0) (hall : ∀ j ∈ l, attemptOk env id j = false) :
    (runLoop env id l s).status ≠ 0 ∧
    ∀ x ∈ (runLoop env id l s).attempts, x ∈ s.attempts ∨ x.1 ∈ l := by
  induction l generalizing s with
  | nil => exact ⟨by rwa [runLoop_nil], fun x hx => Or.inl (by rwa [runLoop_nil] at hx)⟩
  | cons i rest ih =>
    rcases attemptOk_false_elim env id i (hall i (List.mem_cons_self i rest)) with hr | ⟨v, hr, hne⟩
    · rw [runLoop_cons_skip env id i rest s hs hr]
      obtain ⟨h1, h2⟩ := ih s hs (fun j hj => hall j (List.mem_cons_of_mem i hj))
      refine ⟨h1, fun x hx => ?_⟩
      rcases h2 x hx with h | h
      · exact Or.inl h
      · exact Or.inr (List.mem_cons_of_mem i h)
    · rw [runLoop_cons_attempt env id i rest s v hs hr]
      have hstep : (stepState env id s i v).status ≠ 0 := hne
      obtain ⟨h1, h2⟩ := ih _ hstep (fun j hj => hall j (List.mem_cons_of_mem i hj))
      refine ⟨h1, fun x hx => ?_⟩
      rcases h2 x hx with h | h
      · unfold stepState at h
        simp only [List.mem_append, List.mem_singleton] at h
        rcases h with h | h
        · exact Or.inl h
        · exact Or.inr (by rw [h]; exact List.mem_cons_self i rest)
      · exact Or.inr (List.mem_cons_of_mem i h)

/-- A successful attempt at the head entry ends the loop with that
attempt's outputs. -/
theorem runLoop_success_head (env : Env) (id : String) (i : Nat) (rest : List Nat)
    (s : LoopState) (v : String) (hs : s.status ≠ 0)
    (hv : resolveVariant env.props (variant_keys.getD i "") = some v)
    (h0 : (load env.fs id (mkPath id v)).status = 0) :
    runLoop env id (i :: rest) s = stepState env id s i v ∧
    (stepState env id s i v).status = 0 ∧
    (stepState env id s i v).hmi = (load env.fs id (mkPath id v)).hmi ∧
    (stepState env id s i v).attempts = s.attempts ++ [(i, mkPath id v)] := by
  refine ⟨?_, h0, rfl, rfl⟩
  rw [runLoop_cons_attempt env id i rest s v hs hv]
  exact runLoop_stop env id rest _ h0

/-- If every entry before `i` fails and entry `i` resolves and loads
successfully, `hw_get_module` succeeds with entry `i`'s descriptor, and
every recorded attempt is at an earlier entry or at `i` itself. -/
theorem locate_first_success (env : Env) (id : String) (i : Nat)
    (pre suf : List Nat) (hsplit : pre ++ i :: suf = [0, 1, 2])
    (hall : ∀ j ∈ pre, attemptOk env id j = false)
    (v : String)
    (hv : resolveVariant env.props (variant_keys.getD i "") = some v)
    (h0 : (load env.fs id (mkPath id v)).status = 0) :
    (hw_get_module env id).status = 0 ∧
    (hw_get_module env id).module = (load env.fs id (mkPath id v)).hmi ∧
    ∀ x ∈ (hw_get_module env id).attempts, x.1 ∈ pre ∨ x.1 = i := by
  have hini : initState.status ≠ 0 := fun h => initState_status_ne h
  obtain ⟨hpre_st, hpre_att⟩ := runLoop_fail_prefix env id pre initState hini hall
  obtain ⟨heq, hst, hhmi, hatt⟩ :=
    runLoop_success_head env id i suf (runLoop env id pre initState) v hpre_st hv h0
  have hrun : runLoop env id [0, 1, 2] initState =
      stepState env id (runLoop env id pre initState) i v := by
    rw [← hsplit, runLoop_append, heq]
  refine ⟨?_, ?_, ?_⟩
  · rw [hw_get_module_status_eq, hrun]; exact hst
  · rw [hw_get_module_module_of_success env id (by rw [hrun]; exact hst), hrun, hhmi]
  · intro x hx
    rw [hw_get_module_attempts_eq, hrun, hatt] at hx
    rcases List.mem_append.mp hx with h | h
    · rcases hpre_att x h with h' | h'
      · simp [initState] at h'
      · exact Or.inl h'
    · simp only [List.mem_singleton] at h
      rw [h]
      exact Or.inr rfl

/-! ### The claims -/

/-- C1: No handle leak on failure: every call to `load` that returns a
failure writes a null handle and has closed every handle it opened, and
every call to `hw_get_module` that returns a failure leaves zero open
handles attributable to the call. -/
theorem no_handle_leak_on_failure (fs : String → Option LibFile) (env : Env)
    (id path mid : String)
    (h1 : (load fs id path).status ≠ 0)
    (h2 : (hw_get_module env mid).status ≠ 0) :
    (load fs id path).handle = none ∧
    (load fs id path).dlopens = (load fs id path).dlcloses ∧
    (hw_get_module env mid).dlopens = (hw_get_module env mid).dlcloses := by
  obtain ⟨hh, -, hoc⟩ := load_fail fs id path h1
  obtain ⟨-, -, hoc2⟩ := hw_get_module_fail env mid h2
  exact ⟨hh, hoc, hoc2⟩

theorem no_handle_leak_on_failure_witness :
    (load emptyEnv.fs "led" "/system/lib/hw/led.default.so").status ≠ 0 ∧
    (hw_get_module emptyEnv "led").status ≠ 0 ∧
    ((load emptyEnv.fs "led" "/system/lib/hw/led.default.so").handle = none ∧
     (load emptyEnv.fs "led" "/system/lib/hw/led.default.so").dlopens =
       (load emptyEnv.fs "led" "/system/lib/hw/led.default.so").dlcloses ∧
     (hw_get_module emptyEnv "led").dlopens = (hw_get_module emptyEnv "led").dlcloses) :=
  ⟨by decide, by decide,
    no_handle_leak_on_failure emptyEnv.fs emptyEnv "led"
      "/system/lib/hw/led.default.so" "led" (by decide) (by decide)⟩

/-- C2: Strict positional priority with first-success-wins: if entry `i`
of the fixed order (board key, architecture key, default) resolves and
loads successfully while every earlier entry does not, `hw_get_module`
succeeds and returns exactly that entry's descriptor, and no entry after
`i` is ever attempted. -/
theorem first_success_wins (env : Env) (id : String) (i : Nat)
    (hi : i < HAL_VARIANT_KEYS_COUNT)
    (hok : attemptOk env id i = true)
    (hprev : ∀ j, j < i → attemptOk env id j = false) :
    ∃ r, attemptLoad env id i = some r ∧ r.status = 0 ∧
      (hw_get_module env id).status = 0 ∧
      (hw_get_module env id).module = r.hmi ∧
      ∀ x ∈ (hw_get_module env id).attempts, x.1 ≤ i := by
  obtain ⟨v, hv, h0⟩ := (attemptOk_true_iff env id i).mp hok
  have hload : attemptLoad env id i = some (load env.fs id (mkPath id v)) := by
    unfold attemptLoad; rw [hv]; rfl
  refine ⟨load env.fs id (mkPath id v), hload, h0, ?_⟩
  have hi3 : i < 3 := hi
  interval_cases i
  · obtain ⟨h1, h2, h3⟩ := locate_first_success env id 0 [] [1, 2] rfl
      (fun j hj => absurd hj (List.not_mem_nil j)) v hv h0
    refine ⟨h1, h2, fun x hx => ?_⟩
    rcases h3 x hx with h | h
    · exact absurd h (List.not_mem_nil _)
    · omega
  · have hall : ∀ j ∈ [0], attemptOk env id j = false := by
      intro j hj
      have hj0 : j = 0 := by simpa using hj
      rw [hj0]; exact hprev 0 (by omega)
    obtain ⟨h1, h2, h3⟩ := locate_first_success env id 1 [0] [2] rfl hall v hv h0
    refine ⟨h1, h2, fun x hx => ?_⟩
    rcases h3 x hx with h | h
    · simp at h; omega
    · omega
  · have hall : ∀ j ∈ [0, 1], attemptOk env id j = false := by
      intro j hj
      rcases List.mem_cons.mp hj with h | h
      · rw [h]; exact hprev 0 (by omega)
      · have hj1 : j = 1 := by simpa using h
        rw [hj1]; exact hprev 1 (by omega)
    obtain ⟨h1, h2, h3⟩ := locate_first_success env id 2 [0, 1] [] rfl hall v hv h0
    refine ⟨h1, h2, fun x hx => ?_⟩
    rcases h3 x hx with h | h
    · simp at h; omega
    · omega

theorem first_success_wins_witness :
    2 < HAL_VARIANT_KEYS_COUNT ∧
    attemptOk ledEnv "led" 2 = true ∧
    (hw_get_module ledEnv "led").status = 0 := by
  refine ⟨by decide, by decide, ?_⟩
  obtain ⟨r, -, -, hst, -⟩ := first_success_wins ledEnv "led" 2 (by decide) (by decide)
    (fun j hj => by interval_cases j <;> decide)
  exact hst

/-- C3: Verified identity on success: whenever `load` or `hw_get_module`
returns a descriptor, its `id` field equals the requested module id under
exact string equality; when the comparison fails the attempt returns
`-EINVAL` with a null handle, the just-opened handle having been closed. -/
theorem verified_identity_on_success (env : Env) (id path : String) :
    ((load env.fs id path).status = 0 →
      ∃ m, (load env.fs id path).hmi = some m ∧ m.id = id) ∧
    ((hw_get_module env id).status = 0 →
      ∃ m, (hw_get_module env id).module = some m ∧ m.id = id) ∧
    (∀ lib m, env.fs path = some lib → lib.hmi = some m → id ≠ m.id →
      (load env.fs id path).status = -EINVAL ∧
      (load env.fs id path).handle = none ∧
      (load env.fs id path).dlopens = 1 ∧ (load env.fs id path).dlcloses = 1) := by
  refine ⟨fun h => (load_success env.fs id path h).2.1,
    fun h => (hw_get_module_success env id h).2.1, ?_⟩
  intro lib m hfs hm hid
  rw [load_eq_mismatch env.fs id path lib m hfs hm hid]
  exact ⟨rfl, rfl, rfl, rfl⟩

theorem verified_identity_on_success_witness :
    (load ledEnv.fs "led" "/system/lib/hw/led.default.so").status = 0 ∧
    ∃ m, (load ledEnv.fs "led" "/system/lib/hw/led.default.so").hmi = some m ∧
      m.id = "led" :=
  ⟨by decide,
    (verified_identity_on_success ledEnv "led" "/system/lib/hw/led.default.so").1 (by decide)⟩

/-- C4: Silent skip on unavailable variant: if an entry's variant does
not resolve (its configuration key is absent or empty; the fallback entry
always resolves), `hw_get_module` records no load attempt for that entry,
and the loop advances to the next entry with the state untouched. -/
theorem unavailable_entry_skipped (env : Env) (id : String) (i : Nat)
    (h : resolveVariant env.props (variant_keys.getD i "") = none) :
    (∀ x ∈ (hw_get_module env id).attempts, x.1 ≠ i) ∧
    ∀ (rest : List Nat) (s : LoopState), s.status ≠ 0 →
      runLoop env id (i :: rest) s = runLoop env id rest s := by
  constructor
  · intro x hx hxi
    rw [hw_get_module_attempts_eq] at hx
    rcases runLoop_attempts_mem env id _ _ x hx with hmem | ⟨-, v, hv, -⟩
    · simp [initState] at hmem
    · rw [hxi, h] at hv
      cases hv
  · intro rest s hs
    exact runLoop_cons_skip env id i rest s hs h

theorem unavailable_entry_skipped_witness :
    resolveVariant scenarioEnv.props (variant_keys.getD 1 "") = none ∧
    (0, "/system/lib/hw/led.trout.so") ∈ (hw_get_module scenarioEnv "led").attempts ∧
    ((0 : Nat), "/system/lib/hw/led.trout.so").1 ≠ 1 :=
  ⟨by decide, by decide,
    (unavailable_entry_skipped scenarioEnv "led" 1 (by decide)).1
      (0, "/system/lib/hw/led.trout.so") (by decide)⟩

/-- C5: Exhaustion yields nothing: whenever `hw_get_module` returns a
failure status, the caller receives no descriptor (the module output is
null) and no handle. -/
theorem exhaustion_yields_nothing (env : Env) (id : String)
    (h : (hw_get_module env id).status ≠ 0) :
    (hw_get_module env id).module = none ∧ (hw_get_module env id).handle = none :=
  ⟨(hw_get_module_fail env id h).1, (hw_get_module_fail env id h).2.1⟩

theorem exhaustion_yields_nothing_witness :
    (hw_get_module emptyEnv "gps").status ≠ 0 ∧
    (hw_get_module emptyEnv "gps").module = none ∧
    (hw_get_module emptyEnv "gps").handle = none :=
  ⟨by decide, exhaustion_yields_nothing emptyEnv "gps" (by decide)⟩

/-- C6: End-to-end scenario: with module id `"led"`, board key
`"trout"`, arch key unset, a board-variant file whose descriptor id is
`"led2"` and a default-variant file with id `"led"`: the board attempt
fails (its handle closed: two opens, one close overall), the arch entry
is never attempted, and the call succeeds with a descriptor whose id is
`"led"`. -/
theorem scenario_led_default_wins :
    (hw_get_module scenarioEnv "led").status = 0 ∧
    (hw_get_module scenarioEnv "led").module = some { id := "led" } ∧
    (hw_get_module scenarioEnv "led").attempts =
      [(0, "/system/lib/hw/led.trout.so"), (2, "/system/lib/hw/led.default.so")] ∧
    (hw_get_module scenarioEnv "led").dlopens = 2 ∧
    (hw_get_module scenarioEnv "led").dlcloses = 1 ∧
    load scenarioEnv.fs "led" "/system/lib/hw/led.trout.so" =
      { status := -EINVAL, handle := none, hmi := none, dlopens := 1, dlcloses := 1 } := by
  decide

/-- C7: Handle and descriptor are produced only as a pair: on success
`hw_get_module` yields both an open handle and a descriptor; on failure
it yields neither; there is never one without the other. -/
theorem handle_descriptor_pair (env : Env) (id : String) :
    ((hw_get_module env id).handle.isSome = (hw_get_module env id).module.isSome) ∧
    ((hw_get_module env id).status = 0 →
      ∃ p m, (hw_get_module env id).handle = some p ∧
        (hw_get_module env id).module = some m) ∧
    ((hw_get_module env id).status ≠ 0 →
      (hw_get_module env id).handle = none ∧ (hw_get_module env id).module = none) := by
  by_cases h : (hw_get_module env id).status = 0
  · obtain ⟨⟨p, hp⟩, ⟨m, hm, -⟩, -⟩ := hw_get_module_success env id h
    exact ⟨by simp [hp, hm], fun _ => ⟨p, m, hp, hm⟩, fun hc => absurd h hc⟩
  · obtain ⟨hm, hp, -⟩ := hw_get_module_fail env id h
    exact ⟨by simp [hp, hm], fun h0 => absurd h0 h, fun _ => ⟨hp, hm⟩⟩

theorem handle_descriptor_pair_witness :
    (hw_get_module ledEnv "led").status = 0 ∧
    ∃ p m, (hw_get_module ledEnv "led").handle = some p ∧
      (hw_get_module ledEnv "led").module = some m :=
  ⟨by decide, (handle_descriptor_pair ledEnv "led").2.1 (by decide)⟩

/-- C8: Idempotence under unchanged external state: two calls to
`hw_get_module` for the same module id against pointwise-equal
configuration stores and filesystems produce identical results, and in
particular descriptors with the same identity content. -/
theorem locate_idempotent (e₁ e₂ : Env) (id : String)
    (hp : ∀ k, e₁.props k = e₂.props k) (hf : ∀ p, e₁.fs p = e₂.fs p) :
    hw_get_module e₁ id = hw_get_module e₂ id ∧
    (hw_get_module e₁ id).module.map hw_module_t.id =
      (hw_get_module e₂ id).module.map hw_module_t.id := by
  have he : e₁ = e₂ := by
    obtain ⟨p₁, f₁⟩ := e₁
    obtain ⟨p₂, f₂⟩ := e₂
    rw [Env.mk.injEq]
    exact ⟨funext hp, funext hf⟩
  rw [he]
  exact ⟨rfl, rfl⟩

theorem locate_idempotent_witness :
    hw_get_module ledEnv "led" = hw_get_module ledEnv "led" ∧
    (hw_get_module ledEnv "led").module.map hw_module_t.id =
      (hw_get_module ledEnv "led").module.map hw_module_t.id :=
  locate_idempotent ledEnv ledEnv "led" (fun _ => rfl) (fun _ => rfl)

/-- C9: `load` writes both of its output parameters on every path, and
its result is fully coupled to them: it returns 0 iff the written handle
is non-null iff the written descriptor is non-null, and on every failure
path both outputs are null. -/
theorem load_writes_both_outputs (fs : String → Option LibFile) (id path : String) :
    ((load fs id path).status = 0 ↔ (load fs id path).handle.isSome = true) ∧
    ((load fs id path).status = 0 ↔ (load fs id path).hmi.isSome = true) ∧
    ((load fs id path).status ≠ 0 →
      (load fs id path).handle = none ∧ (load fs id path).hmi = none) := by
  rcases load_branches fs id path with he | he | ⟨m, -, he⟩ <;> rw [he] <;>
    exact ⟨by simp [EINVAL], by simp [EINVAL], by simp [EINVAL]⟩

theorem load_writes_both_outputs_witness :
    (load emptyEnv.fs "led" "/system/lib/hw/led.default.so").status ≠ 0 ∧
    (load emptyEnv.fs "led" "/system/lib/hw/led.default.so").handle = none ∧
    (load emptyEnv.fs "led" "/system/lib/hw/led.default.so").hmi = none :=
  ⟨by decide,
    (load_writes_both_outputs emptyEnv.fs "led" "/system/lib/hw/led.default.so").2.2
      (by decide)⟩

/-- C10: Every failure collapses to `-EINVAL`: `load` and
`hw_get_module` only ever return 0 or `-EINVAL`, and the three distinct
per-candidate failure causes (open failure, missing descriptor symbol,
id mismatch) all produce the same `-EINVAL` from `load`. -/
theorem failures_collapse_to_einval (env : Env) (id path : String) :
    ((load env.fs id path).status = 0 ∨ (load env.fs id path).status = -EINVAL) ∧
    ((hw_get_module env id).status = 0 ∨ (hw_get_module env id).status = -EINVAL) ∧
    (env.fs path = none → (load env.fs id path).status = -EINVAL) ∧
    (∀ lib, env.fs path = some lib → lib.hmi = none →
      (load env.fs id path).status = -EINVAL) ∧
    (∀ lib m, env.fs path = some lib → lib.hmi = some m → id ≠ m.id →
      (load env.fs id path).status = -EINVAL) := by
  refine ⟨load_status_cases env.fs id path, hw_get_module_status_cases env id, ?_, ?_, ?_⟩
  · intro hfs
    rw [load_eq_open_fail env.fs id path hfs]
  · intro lib hfs hm
    rw [load_eq_sym_fail env.fs id path lib hfs hm]
  · intro lib m hfs hm hid
    rw [load_eq_mismatch env.fs id path lib m hfs hm hid]

theorem failures_collapse_to_einval_witness :
    emptyEnv.fs "/system/lib/hw/led.default.so" = none ∧
    (load emptyEnv.fs "led" "/system/lib/hw/led.default.so").status = -EINVAL :=
  ⟨rfl,
    (failures_collapse_to_einval emptyEnv "led" "/system/lib/hw/led.default.so").2.2.1 rfl⟩

end Hardware
